import Mathlib

/-!
Verification of the pngme PNG chunk codec.

Shallow embedding of the three source modules:
- src/chunk_type/mod.rs : ChunkType (4-byte code, UTF-8-checked construction,
  bit-5 property queries);
- src/chunk/mod.rs : Chunk (type + payload, CRC-32/ISO-HDLC checksum, byte
  codec via TryFrom<&Vec<u8>> and as_bytes);
- src/png/mod.rs : Png (signature check, chunk-by-chunk parse loop, serialize,
  remove_chunk / chunk_by_type).

Bytes are modelled as Nat (a real byte is < 256); byte buffers as List Nat.
Rust u32 arithmetic is modelled with explicit % 2 ^ 32 where it matters.
Fallible Rust paths return sum types; a Rust panic (out-of-bounds slice
indexing or split_at) is modelled as a distinguished result constructor.
-/

set_option maxHeartbeats 1000000

/-- Continuation byte test for UTF-8: 0x80 ≤ b ≤ 0xBF. -/
def isCont (b : Nat) : Bool := 0x80 ≤ b && b ≤ 0xBF

/-- Modelled from the spec: behaviour of Rust std str::from_utf8 (not part of
this repository), i.e. RFC 3629 UTF-8 validity of a byte sequence: ASCII,
2-byte C2..DF, 3-byte E0/E1..EC/ED/EE..EF with their continuation ranges
(overlongs and surrogates excluded), 4-byte F0/F1..F3/F4 with their ranges. -/
def utf8Valid : List Nat → Bool
  | [] => true
  | b :: rest =>
    if b ≤ 0x7F then utf8Valid rest
    else if 0xC2 ≤ b && b ≤ 0xDF then
      match rest with
      | c1 :: r => isCont c1 && utf8Valid r
      | [] => false
    else if b == 0xE0 then
      match rest with
      | c1 :: c2 :: r => (0xA0 ≤ c1 && c1 ≤ 0xBF) && isCont c2 && utf8Valid r
      | _ => false
    else if (0xE1 ≤ b && b ≤ 0xEC) || (0xEE ≤ b && b ≤ 0xEF) then
      match rest with
      | c1 :: c2 :: r => isCont c1 && isCont c2 && utf8Valid r
      | _ => false
    else if b == 0xED then
      match rest with
      | c1 :: c2 :: r => (0x80 ≤ c1 && c1 ≤ 0x9F) && isCont c2 && utf8Valid r
      | _ => false
    else if b == 0xF0 then
      match rest with
      | c1 :: c2 :: c3 :: r =>
        (0x90 ≤ c1 && c1 ≤ 0xBF) && isCont c2 && isCont c3 && utf8Valid r
      | _ => false
    else if 0xF1 ≤ b && b ≤ 0xF3 then
      match rest with
      | c1 :: c2 :: c3 :: r => isCont c1 && isCont c2 && isCont c3 && utf8Valid r
      | _ => false
    else if b == 0xF4 then
      match rest with
      | c1 :: c2 :: c3 :: r =>
        (0x80 ≤ c1 && c1 ≤ 0x8F) && isCont c2 && isCont c3 && utf8Valid r
      | _ => false
    else false

/-- Rust u32::to_be_bytes: the four big-endian bytes of a 32-bit value. -/
def toBeBytes4 (n : Nat) : List Nat :=
  [n / 2 ^ 24 % 256, n / 2 ^ 16 % 256, n / 2 ^ 8 % 256, n % 256]

/-- Rust u32::from_be_bytes on a 4-byte array (big-endian accumulation). -/
def fromBeBytes (l : List Nat) : Nat :=
  l.foldl (fun acc b => acc * 256 + b) 0

/-- Modelled from the spec: one bit step of the crc crate's CRC_32_ISO_HDLC
(the crate is an external dependency, not in src/): reflected polynomial
0xEDB88320, LSB-first shift. -/
def crc32Round (c : Nat) : Nat :=
  if c % 2 = 1 then (c / 2) ^^^ 0xEDB88320 else c / 2

/-- Modelled from the spec: one byte step of CRC-32/ISO-HDLC — xor the byte
into the low 8 bits of the running remainder, then 8 reflected bit steps. -/
def crc32Byte (c b : Nat) : Nat :=
  Nat.repeat crc32Round 8 (c ^^^ (b % 256))

/-- Modelled from the spec: CRC-32/ISO-HDLC over a byte sequence — polynomial
0x04C11DB7, init 0xFFFFFFFF, input and output reflected, final xor 0xFFFFFFFF
(realised in the standard reflected form). Validated below against the
standard check value for "123456789". -/
def crc32 (bytes : List Nat) : Nat :=
  (bytes.foldl crc32Byte 0xFFFFFFFF) ^^^ 0xFFFFFFFF

/-- ChunkType from src/chunk_type/mod.rs: a 4-byte chunk type code,
raw: [u8; 4] modelled as four byte fields. -/
structure ChunkType where
  b0 : Nat
  b1 : Nat
  b2 : Nat
  b3 : Nat
deriving DecidableEq, Repr

/-- ChunkType::bytes — the raw code as a byte list. -/
def ChunkType.bytes (ct : ChunkType) : List Nat :=
  [ct.b0, ct.b1, ct.b2, ct.b3]

/-- TryFrom<[u8; 4]> for ChunkType: str::from_utf8 on the 4 bytes; on success
the bytes are stored verbatim, on failure the error propagates. -/
def ChunkType.try_from (a b c d : Nat) : Option ChunkType :=
  if utf8Valid [a, b, c, d] then some ⟨a, b, c, d⟩ else none

/-- Display for ChunkType: the UTF-8 rendering of the raw bytes, or the
placeholder string "invalid" when they are not valid UTF-8. Rendered strings
are modelled by their UTF-8 byte sequences. -/
def ChunkType.display (ct : ChunkType) : List Nat :=
  if utf8Valid ct.bytes then ct.bytes else [105, 110, 118, 97, 108, 105, 100]

/-- is_ascii_lowercase || is_ascii_uppercase on a byte, as used by the source. -/
def isAsciiLetterByte (b : Nat) : Bool :=
  (97 ≤ b && b ≤ 122) || (65 ≤ b && b ≤ 90)

/-- ChunkType::is_critical — bit 5 of byte 0 is 0. -/
def ChunkType.is_critical (ct : ChunkType) : Bool :=
  (ct.b0 >>> 5) &&& 1 == 0

/-- ChunkType::is_public — bit 5 of byte 1 is 0. -/
def ChunkType.is_public (ct : ChunkType) : Bool :=
  (ct.b1 >>> 5) &&& 1 == 0

/-- ChunkType::is_reserved_bit_valid — bit 5 of byte 2 is 0. -/
def ChunkType.is_reserved_bit_valid (ct : ChunkType) : Bool :=
  (ct.b2 >>> 5) &&& 1 == 0

/-- ChunkType::is_safe_to_copy — bit 5 of byte 3 is 1. -/
def ChunkType.is_safe_to_copy (ct : ChunkType) : Bool :=
  (ct.b3 >>> 5) &&& 1 == 1

/-- ChunkType::is_valid — fold requiring every byte an ASCII letter, and the
reserved bit rule. -/
def ChunkType.is_valid (ct : ChunkType) : Bool :=
  (ct.bytes.foldl (fun valid byte => isAsciiLetterByte byte && valid) true)
    && ct.is_reserved_bit_valid

set_option maxRecDepth 400000

/-- Chunk from src/chunk/mod.rs: a chunk type plus payload bytes. The crc
field of the Rust struct is the stateless CRC engine (the same
CRC_32_ISO_HDLC algorithm for every chunk), so it carries no data and is
modelled by the crc32 function itself. -/
structure Chunk where
  chunk_type : ChunkType
  data : List Nat
deriving DecidableEq, Repr

/-- Chunk::crc — CRC-32/ISO-HDLC over the concatenation of the 4 chunk type
bytes and the payload bytes (length and checksum fields excluded). -/
def Chunk.crc (c : Chunk) : Nat :=
  crc32 (c.chunk_type.bytes ++ c.data)

/-- Chunk::length — data.len() as u32, which panics (unwrap) when the payload
does not fit in 32 bits; none models that panic. -/
def Chunk.length32 (c : Chunk) : Option Nat :=
  if c.data.length < 2 ^ 32 then some c.data.length else none

/-- Encoded form of a chunk: big-endian length, type bytes, payload,
big-endian checksum. -/
def Chunk.encode (c : Chunk) : List Nat :=
  toBeBytes4 c.data.length ++ c.chunk_type.bytes ++ c.data ++ toBeBytes4 c.crc

/-- Chunk::as_bytes — length().to_be_bytes ++ type bytes ++ data ++
crc().to_be_bytes; none when length() panics (payload ≥ 2^32 bytes). -/
def Chunk.as_bytes (c : Chunk) : Option (List Nat) :=
  if c.data.length < 2 ^ 32 then some c.encode else none

/-- Error values actually returned (as anyhow errors) by Chunk's TryFrom:
the propagated str::from_utf8 failure from ChunkType::try_from, and the
crc mismatch error. -/
inductive ChunkErr
  | utf8Error
  | checksumMismatch
deriving DecidableEq, Repr

/-- Outcome of Chunk's TryFrom<&Vec<u8>>: an Ok chunk, a returned error, or a
Rust panic (out-of-range split_at / slice index). -/
inductive ChunkResult
  | ok (c : Chunk)
  | err (e : ChunkErr)
  | panicked
deriving DecidableEq, Repr

/-- TryFrom<&Vec<u8>> for Chunk, from src/chunk/mod.rs lines 112-131:
value.split_at(8) (panics when the buffer holds fewer than 8 bytes, hence the
8-cons pattern), big-endian length from the first 4 bytes, ChunkType from the
next 4 (propagating its error), rest.split_at(length) (panics when the
declared length exceeds the remaining bytes), Chunk::new, rest[0..4] for the
stored checksum (panics when fewer than 4 bytes remain), and rejection when
the stored checksum differs from the computed one. -/
def Chunk.try_from (value : List Nat) : ChunkResult :=
  match value with
  | l0 :: l1 :: l2 :: l3 :: t0 :: t1 :: t2 :: t3 :: rest =>
    let len := fromBeBytes [l0, l1, l2, l3]
    match ChunkType.try_from t0 t1 t2 t3 with
    | none => .err .utf8Error
    | some ct =>
      if rest.length < len then .panicked
      else
        let data := rest.take len
        match rest.drop len with
        | c0 :: c1 :: c2 :: c3 :: _ =>
          let crcStored := fromBeBytes [c0, c1, c2, c3]
          if crcStored ≠ Chunk.crc ⟨ct, data⟩ then .err .checksumMismatch
          else .ok ⟨ct, data⟩
        | _ => .panicked
  | _ => .panicked

/-- A successful chunk decode consumed at most the buffer: the buffer holds
at least the 12 framing bytes plus the payload. Used for termination of the
container parse loop. -/
theorem Chunk.try_from_ok_length {v : List Nat} {c : Chunk}
    (h : Chunk.try_from v = .ok c) : c.data.length + 12 ≤ v.length := by
  unfold Chunk.try_from at h
  split at h
  case h_2 => simp at h
  case h_1 l0 l1 l2 l3 t0 t1 t2 t3 rest =>
    split at h
    · simp at h
    · dsimp only at h
      split at h
      · simp at h
      · rename_i hlen
        split at h
        case h_2 => simp at h
        case h_1 c0 c1 c2 c3 tail hdrop =>
          split at h
          · simp at h
          · simp only [ChunkResult.ok.injEq] at h
            subst h
            have hd : (rest.drop (fromBeBytes [l0, l1, l2, l3])).length =
                rest.length - fromBeBytes [l0, l1, l2, l3] := List.length_drop ..
            rw [hdrop] at hd
            simp only [List.length_cons, List.length_take, List.length] at *
            omega

/-- Png from src/png/mod.rs: an ordered sequence of chunks. -/
structure Png where
  chunks : List Chunk
deriving DecidableEq, Repr

/-- Png::STANDARD_HEADER — the fixed 8-byte PNG signature. -/
def Png.STANDARD_HEADER : List Nat := [137, 80, 78, 71, 13, 10, 26, 10]

/-- UTF-8 bytes of the terminator code string "IEND" compared against the
rendered chunk type in the parse loop. -/
def iendBytes : List Nat := [73, 69, 78, 68]

/-- Error value actually returned (as an anyhow error) by Png's TryFrom:
only the signature mismatch; every other exit of the loop is an Ok or a
panic. -/
inductive PngErr
  | badSignature
deriving DecidableEq, Repr

/-- Outcome of Png's TryFrom<&[u8]>: an Ok container, a returned error, or a
Rust panic (out-of-range slice index, possibly propagated from Chunk). -/
inductive PngResult
  | ok (p : Png)
  | err (e : PngErr)
  | panicked
deriving DecidableEq, Repr

/-- Parse loop of Png's TryFrom, from src/png/mod.rs lines 35-52: decode a
chunk from the remaining buffer; on Ok advance by length + 12 and append,
breaking with the accumulated chunks once the rendered chunk type equals
"IEND"; on a decode error print "Oops" and break, still returning Ok with
the accumulated chunks; a panic inside the chunk decode propagates. -/
def Png.parseChunks (acc : List Chunk) (rest : List Nat) : PngResult :=
  match h : Chunk.try_from rest with
  | .panicked => .panicked
  | .err _ => .ok ⟨acc⟩
  | .ok c =>
    if c.chunk_type.display = iendBytes then .ok ⟨acc ++ [c]⟩
    else Png.parseChunks (acc ++ [c]) (rest.drop (c.data.length + 12))
termination_by rest.length
decreasing_by
  have := Chunk.try_from_ok_length h
  simp only [List.length_drop]
  omega

/-- TryFrom<&[u8]> for Png, from src/png/mod.rs lines 27-54: value[0..8]
(panics when the buffer holds fewer than 8 bytes, hence the 8-cons pattern),
signature comparison failing with the signature-mismatch error, then the
chunk parse loop starting at index 8 with an empty accumulator. -/
def Png.try_from (value : List Nat) : PngResult :=
  match value with
  | s0 :: s1 :: s2 :: s3 :: s4 :: s5 :: s6 :: s7 :: rest =>
    if [s0, s1, s2, s3, s4, s5, s6, s7] ≠ Png.STANDARD_HEADER then
      .err .badSignature
    else Png.parseChunks [] rest
  | _ => .panicked

/-- Concatenated encodings of a chunk sequence (the total-function core of
Png::as_bytes). -/
def encodeList : List Chunk → List Nat
  | [] => []
  | c :: cs => c.encode ++ encodeList cs

/-- Chunk-by-chunk serialization, propagating the length() panic of any
oversized chunk as none. -/
def chunksBytes : List Chunk → Option (List Nat)
  | [] => some []
  | c :: cs =>
    match c.as_bytes, chunksBytes cs with
    | some b, some bs => some (b ++ bs)
    | _, _ => none

/-- Png::as_bytes — the signature bytes followed by each chunk's as_bytes
output, folded in sequence order. -/
def Png.as_bytes (p : Png) : Option (List Nat) :=
  (chunksBytes p.chunks).map (fun bs => Png.STANDARD_HEADER ++ bs)

/-- Core of Png::remove_chunk: position of the first chunk whose rendered
type equals the target string, then Vec::remove at that position — i.e.
return the first match together with the remaining chunks in order. -/
def removeChunkAux (target : List Nat) : List Chunk → Option (Chunk × List Chunk)
  | [] => none
  | c :: cs =>
    if c.chunk_type.display = target then some (c, cs)
    else
      match removeChunkAux target cs with
      | some (r, rest) => some (r, c :: rest)
      | none => none

/-- Png::remove_chunk — removes and returns the first chunk whose rendered
type equals the target; none models the chunk-not-found error. -/
def Png.remove_chunk (p : Png) (target : List Nat) : Option (Chunk × Png) :=
  (removeChunkAux target p.chunks).map (fun x => (x.1, ⟨x.2⟩))

/-- Png::chunk_by_type — first chunk whose rendered type equals the target. -/
def Png.chunk_by_type (p : Png) (target : List Nat) : Option Chunk :=
  p.chunks.find? (fun c => c.chunk_type.display == target)

/-- Big-endian round trip: encoding a 32-bit value to 4 bytes and decoding
them back is the identity. -/
theorem fromBe_toBe {n : Nat} (h : n < 2 ^ 32) :
    fromBeBytes (toBeBytes4 n) = n := by
  simp only [toBeBytes4, fromBeBytes, List.foldl]
  omega

/-- The CRC-32 remainder stays below 2^32 through one reflected bit step. -/
theorem crc32Round_lt {c : Nat} (h : c < 2 ^ 32) : crc32Round c < 2 ^ 32 := by
  unfold crc32Round
  split
  · exact Nat.xor_lt_two_pow (by omega) (by norm_num)
  · omega

/-- The CRC-32 remainder stays below 2^32 through one byte step. -/
theorem crc32Byte_lt {c : Nat} (b : Nat) (h : c < 2 ^ 32) :
    crc32Byte c b < 2 ^ 32 := by
  unfold crc32Byte
  have hx : c ^^^ (b % 256) < 2 ^ 32 :=
    Nat.xor_lt_two_pow h (by have := Nat.mod_lt b (show 0 < 256 by norm_num); omega)
  have hrep : ∀ k x, x < 2 ^ 32 → Nat.repeat crc32Round k x < 2 ^ 32 := by
    intro k
    induction k with
    | zero => intro x hx; simpa [Nat.repeat] using hx
    | succ k ih =>
      intro x hx
      simpa [Nat.repeat] using crc32Round_lt (ih x hx)
  exact hrep 8 _ hx

/-- A CRC-32 checksum is a 32-bit value. -/
theorem crc32_lt (bytes : List Nat) : crc32 bytes < 2 ^ 32 := by
  unfold crc32
  have hfold : ∀ (l : List Nat) (c : Nat), c < 2 ^ 32 →
      l.foldl crc32Byte c < 2 ^ 32 := by
    intro l
    induction l with
    | nil => intro c hc; simpa using hc
    | cons b t ih =>
      intro c hc
      simpa [List.foldl] using ih _ (crc32Byte_lt b hc)
  exact Nat.xor_lt_two_pow (hfold _ _ (by norm_num)) (by norm_num)

/-- A chunk checksum is a 32-bit value. -/
theorem Chunk.crc_lt (c : Chunk) : c.crc < 2 ^ 32 := crc32_lt _

/-- Encoded chunk size: 4 length bytes + 4 type bytes + payload + 4 checksum
bytes. -/
theorem Chunk.encode_length (c : Chunk) :
    (Chunk.encode c).length = c.data.length + 12 := by
  simp [Chunk.encode, toBeBytes4, ChunkType.bytes]

/-- A chunk type whose bytes are valid UTF-8 renders as exactly those bytes. -/
theorem ChunkType.display_of_utf8 {ct : ChunkType}
    (h : utf8Valid ct.bytes = true) : ct.display = ct.bytes := by
  simp [ChunkType.display, h]

/-- Decoding a structurally well-formed chunk record (correct length prefix,
UTF-8-valid type, any stored 32-bit checksum, any trailing bytes) reaches the
checksum comparison: it yields the chunk when the stored checksum equals the
computed one and the checksum-mismatch error otherwise. -/
theorem Chunk.try_from_encode (ct : ChunkType) (data : List Nat) (w : Nat)
    (tail : List Nat) (hu : utf8Valid ct.bytes = true)
    (hd : data.length < 2 ^ 32) (hw : w < 2 ^ 32) :
    Chunk.try_from (toBeBytes4 data.length ++ ct.bytes ++ data ++ toBeBytes4 w ++ tail) =
      if w = Chunk.crc ⟨ct, data⟩ then .ok ⟨ct, data⟩
      else .err .checksumMismatch := by
  obtain ⟨b0, b1, b2, b3⟩ := ct
  simp only [ChunkType.bytes] at hu ⊢
  unfold Chunk.try_from
  simp only [toBeBytes4, List.cons_append, List.nil_append]
  have hlen : fromBeBytes [data.length / 2 ^ 24 % 256, data.length / 2 ^ 16 % 256,
      data.length / 2 ^ 8 % 256, data.length % 256] = data.length := by
    have := fromBe_toBe hd
    simpa [toBeBytes4] using this
  have hct : ChunkType.try_from b0 b1 b2 b3 = some ⟨b0, b1, b2, b3⟩ := by
    simp [ChunkType.try_from, hu]
  rw [hct]
  dsimp only
  rw [hlen]
  simp only [List.append_assoc, List.cons_append, List.nil_append]
  rw [if_neg (by simp)]
  rw [List.take_left' rfl, List.drop_left' rfl]
  dsimp only
  have hwv : fromBeBytes [w / 2 ^ 24 % 256, w / 2 ^ 16 % 256,
      w / 2 ^ 8 % 256, w % 256] = w := by
    have := fromBe_toBe hw
    simpa [toBeBytes4] using this
  rw [hwv]
  by_cases hwc : w = Chunk.crc ⟨⟨b0, b1, b2, b3⟩, data⟩
  · rw [if_pos hwc, if_neg (by simpa using hwc)]
  · rw [if_neg hwc, if_pos (by simpa using hwc)]

/-- The parse loop returns Ok with the accumulated chunks as soon as a chunk
decode returns an error (the "Oops" break in the source). -/
theorem Png.parseChunks_err {acc : List Chunk} {rest : List Nat} {e : ChunkErr}
    (h : Chunk.try_from rest = .err e) : Png.parseChunks acc rest = .ok ⟨acc⟩ := by
  unfold Png.parseChunks
  split <;> rename_i heq <;> simp [h] at heq
  rfl

/-- The parse loop propagates a panic of the chunk decoder. -/
theorem Png.parseChunks_panicked {acc : List Chunk} {rest : List Nat}
    (h : Chunk.try_from rest = .panicked) :
    Png.parseChunks acc rest = .panicked := by
  unfold Png.parseChunks
  split <;> rename_i heq <;> simp [h] at heq
  rfl

/-- One successful step of the parse loop: append the decoded chunk, stop on
the terminator, otherwise advance by its consumed size. -/
theorem Png.parseChunks_ok {acc : List Chunk} {rest : List Nat} {c : Chunk}
    (h : Chunk.try_from rest = .ok c) :
    Png.parseChunks acc rest =
      if c.chunk_type.display = iendBytes then .ok ⟨acc ++ [c]⟩
      else Png.parseChunks (acc ++ [c]) (rest.drop (c.data.length + 12)) := by
  conv_lhs => unfold Png.parseChunks
  split <;> rename_i heq <;> simp [h] at heq
  subst heq
  rfl

/-- Parsing a buffer that starts with the standard signature proceeds to the
chunk parse loop on the remainder. -/
theorem Png.try_from_header (rest : List Nat) :
    Png.try_from (Png.STANDARD_HEADER ++ rest) = Png.parseChunks [] rest := by
  simp [Png.try_from, Png.STANDARD_HEADER]

/-- Decoding an encoded chunk (with any trailing bytes) succeeds and recovers
the chunk, provided its type bytes are valid UTF-8 and its payload fits the
32-bit length field. -/
theorem Chunk.try_from_encode_ok (c : Chunk) (tail : List Nat)
    (hu : utf8Valid c.chunk_type.bytes = true) (hd : c.data.length < 2 ^ 32) :
    Chunk.try_from (c.encode ++ tail) = .ok c := by
  obtain ⟨ct, data⟩ := c
  have h := Chunk.try_from_encode ct data (Chunk.crc ⟨ct, data⟩) tail hu hd
    (Chunk.crc_lt _)
  rw [if_pos rfl] at h
  simpa [Chunk.encode, List.append_assoc] using h

/-- When every chunk's payload fits the length field, Png::as_bytes encodes
the sequence as the concatenation of the chunk encodings. -/
theorem chunksBytes_eq_encodeList (cs : List Chunk)
    (h : ∀ c ∈ cs, c.data.length < 2 ^ 32) :
    chunksBytes cs = some (encodeList cs) := by
  induction cs with
  | nil => rfl
  | cons c t ih =>
    have hc : c.data.length < 2 ^ 32 := h c (by simp)
    have ht := ih (fun x hx => h x (by simp [hx]))
    have ha : c.as_bytes = some c.encode := by rw [Chunk.as_bytes, if_pos hc]
    simp [chunksBytes, encodeList, ha, ht]

/-- Running the parse loop over the encodings of a chunk sequence whose last
chunk (and only that chunk) bears the terminator type reconstructs exactly
the sequence, appended to the accumulator. -/
theorem Png.parseChunks_encodeList (init : List Chunk) :
    ∀ (acc : List Chunk) (last : Chunk),
      (∀ c ∈ init ++ [last],
        utf8Valid c.chunk_type.bytes = true ∧ c.data.length < 2 ^ 32) →
      last.chunk_type.bytes = iendBytes →
      (∀ c ∈ init, c.chunk_type.bytes ≠ iendBytes) →
      Png.parseChunks acc (encodeList (init ++ [last])) =
        .ok ⟨acc ++ init ++ [last]⟩ := by
  induction init with
  | nil =>
    intro acc last hv hlast _
    have hl := hv last (by simp)
    have hdec : Chunk.try_from (encodeList ([] ++ [last])) = .ok last := by
      simpa [encodeList] using Chunk.try_from_encode_ok last [] hl.1 hl.2
    rw [Png.parseChunks_ok hdec,
      if_pos (by rw [ChunkType.display_of_utf8 hl.1, hlast])]
    simp
  | cons c cs ih =>
    intro acc last hv hlast hinit
    have hc := hv c (by simp)
    have hdec : Chunk.try_from (encodeList ((c :: cs) ++ [last])) = .ok c := by
      simpa [encodeList] using
        Chunk.try_from_encode_ok c (encodeList (cs ++ [last])) hc.1 hc.2
    rw [Png.parseChunks_ok hdec,
      if_neg (by rw [ChunkType.display_of_utf8 hc.1]; exact hinit c (by simp))]
    have hdrop : (encodeList ((c :: cs) ++ [last])).drop (c.data.length + 12) =
        encodeList (cs ++ [last]) := by
      show (c.encode ++ encodeList (cs ++ [last])).drop (c.data.length + 12) =
        encodeList (cs ++ [last])
      exact List.drop_left' (Chunk.encode_length c)
    rw [hdrop,
      ih (acc ++ [c]) last (fun x hx => hv x (by simp at hx ⊢; tauto)) hlast
        (fun x hx => hinit x (by simp [hx]))]
    simp

/-- When no chunk renders as the target type, the position search of
remove_chunk finds nothing. -/
theorem removeChunkAux_not_found {target : List Nat} {l : List Chunk}
    (h : ∀ c ∈ l, c.chunk_type.display ≠ target) :
    removeChunkAux target l = none := by
  induction l with
  | nil => rfl
  | cons c cs ih =>
    simp only [removeChunkAux]
    rw [if_neg (h c (by simp)), ih (fun x hx => h x (by simp [hx]))]

/-- The position search of remove_chunk returns the first matching chunk and
the remaining chunks in their original relative order. -/
theorem removeChunkAux_first {target : List Nat} {c : Chunk} {l2 : List Chunk} :
    ∀ l1 : List Chunk, (∀ x ∈ l1, x.chunk_type.display ≠ target) →
      c.chunk_type.display = target →
      removeChunkAux target (l1 ++ c :: l2) = some (c, l1 ++ l2) := by
  intro l1
  induction l1 with
  | nil =>
    intro _ hc
    simp [removeChunkAux, hc]
  | cons a l ih =>
    intro h1 hc
    simp only [List.cons_append, removeChunkAux, List.append_eq]
    rw [if_neg (h1 a (by simp)), ih (fun x hx => h1 x (by simp [hx])) hc]

/-- The first-match search of chunk_by_type returns the first matching chunk. -/
theorem find_chunk_first {target : List Nat} {c : Chunk} {l2 : List Chunk} :
    ∀ l1 : List Chunk, (∀ x ∈ l1, x.chunk_type.display ≠ target) →
      c.chunk_type.display = target →
      List.find? (fun x => x.chunk_type.display == target) (l1 ++ c :: l2) =
        some c := by
  intro l1
  induction l1 with
  | nil =>
    intro _ hc
    simp only [List.nil_append]
    exact List.find?_cons_of_pos _ (by simpa using hc)
  | cons a l ih =>
    intro h1 hc
    simp only [List.cons_append]
    rw [List.find?_cons_of_neg _ (by simpa using h1 a (by simp)),
      ih (fun x hx => h1 x (by simp [hx])) hc]

/-- Claim C1: the claim says Png::try_from fails with a propagated
TruncatedInput/ChecksumMismatch error when a chunk cannot be decoded, and
fails with MissingTerminator when the buffer is exhausted without a
terminator. The code does neither: on a chunk decode error it prints "Oops",
breaks, and returns Ok with the accumulated chunks (here a signature followed
by an IHDR chunk with a wrong stored checksum parses to Ok with zero chunks),
and on an exhausted buffer it panics inside Chunk's split_at(8) instead of
returning MissingTerminator (here a signature-only buffer). -/
theorem claim_C1_parse_error_swallowed :
    Png.try_from [137, 80, 78, 71, 13, 10, 26, 10,
      0, 0, 0, 0, 73, 72, 68, 82, 0, 0, 0, 0] = .ok ⟨[]⟩ ∧
    Png.try_from [137, 80, 78, 71, 13, 10, 26, 10] = .panicked := by
  constructor
  · rw [show ([137, 80, 78, 71, 13, 10, 26, 10,
        0, 0, 0, 0, 73, 72, 68, 82, 0, 0, 0, 0] : List Nat) =
        Png.STANDARD_HEADER ++ [0, 0, 0, 0, 73, 72, 68, 82, 0, 0, 0, 0]
        from rfl,
      Png.try_from_header,
      @Png.parseChunks_err [] _ ChunkErr.checksumMismatch (by decide)]
  · rw [show ([137, 80, 78, 71, 13, 10, 26, 10] : List Nat) =
        Png.STANDARD_HEADER ++ [] from rfl,
      Png.try_from_header, @Png.parseChunks_panicked [] [] (by decide)]

/-- Claim C2 counterexample: a container produced by successful parsing for
which parse ∘ serialize does not succeed with an equal container. The buffer
below (signature then a tEXt chunk with a wrong stored checksum) parses
successfully to the empty-chunk container; that container serializes to the
bare signature; parsing the bare signature panics, so it does not return the
container again. -/
theorem claim_C2_counterexample :
    Png.try_from [137, 80, 78, 71, 13, 10, 26, 10,
      0, 0, 0, 1, 116, 69, 88, 116, 55, 0, 0, 0, 1] = .ok ⟨[]⟩ ∧
    Png.as_bytes ⟨[]⟩ = some Png.STANDARD_HEADER ∧
    Png.try_from Png.STANDARD_HEADER = .panicked ∧
    Png.try_from Png.STANDARD_HEADER ≠ .ok ⟨[]⟩ := by
  refine ⟨?_, rfl, ?_, ?_⟩
  · rw [show ([137, 80, 78, 71, 13, 10, 26, 10,
        0, 0, 0, 1, 116, 69, 88, 116, 55, 0, 0, 0, 1] : List Nat) =
        Png.STANDARD_HEADER ++ [0, 0, 0, 1, 116, 69, 88, 116, 55, 0, 0, 0, 1]
        from rfl,
      Png.try_from_header,
      @Png.parseChunks_err [] _ ChunkErr.checksumMismatch (by decide)]
  · rw [show Png.STANDARD_HEADER = Png.STANDARD_HEADER ++ [] by simp,
      Png.try_from_header, @Png.parseChunks_panicked [] [] (by decide)]
  · rw [show Png.STANDARD_HEADER = Png.STANDARD_HEADER ++ [] by simp,
      Png.try_from_header, @Png.parseChunks_panicked [] [] (by decide)]
    simp

/-- Claim C2 (amended): for every container built from a chunk sequence whose
chunk types are all valid UTF-8, whose payloads all fit the 32-bit length
field, and whose last chunk — and only the last — bears the terminator type
IEND, serialization succeeds and parsing the serialized bytes yields exactly
the same ordered chunk sequence. -/
theorem claim_C2_round_trip (init : List Chunk) (last : Chunk)
    (hv : ∀ c ∈ init ++ [last],
      utf8Valid c.chunk_type.bytes = true ∧ c.data.length < 2 ^ 32)
    (hlast : last.chunk_type.bytes = iendBytes)
    (hinit : ∀ c ∈ init, c.chunk_type.bytes ≠ iendBytes) :
    Png.as_bytes ⟨init ++ [last]⟩ =
      some (Png.STANDARD_HEADER ++ encodeList (init ++ [last])) ∧
    Png.try_from (Png.STANDARD_HEADER ++ encodeList (init ++ [last])) =
      .ok ⟨init ++ [last]⟩ := by
  constructor
  · simp [Png.as_bytes,
      chunksBytes_eq_encodeList (init ++ [last]) (fun c hc => (hv c hc).2)]
  · rw [Png.try_from_header,
      Png.parseChunks_encodeList init [] last hv hlast hinit]
    simp

/-- Witness for claim C2 (amended): the container holding a single empty
IEND chunk round-trips through serialize and parse. -/
theorem claim_C2_round_trip_witness :
    Png.as_bytes ⟨[⟨⟨73, 69, 78, 68⟩, []⟩]⟩ =
      some (Png.STANDARD_HEADER ++ encodeList [⟨⟨73, 69, 78, 68⟩, []⟩]) ∧
    Png.try_from (Png.STANDARD_HEADER ++ encodeList [⟨⟨73, 69, 78, 68⟩, []⟩]) =
      .ok ⟨[⟨⟨73, 69, 78, 68⟩, []⟩]⟩ :=
  claim_C2_round_trip [] ⟨⟨73, 69, 78, 68⟩, []⟩ (by decide) (by decide)
    (by simp)

/-- Claim C3: the claim says Chunk decode fails with TruncatedInput and never
reads out of bounds when the declared length demands more bytes than remain,
or when the buffer is too short for the fixed fields. The code instead
panics: a declared length of 5 with only 2 payload bytes panics in
rest.split_at(length), and a 4-byte buffer panics in value.split_at(8). -/
theorem claim_C3_truncated_decode_panics :
    Chunk.try_from [0, 0, 0, 5, 73, 72, 68, 82, 0, 0] = .panicked ∧
    Chunk.try_from [0, 0, 0, 1] = .panicked := by decide

/-- Claim C4: Chunk::crc computes CRC-32/ISO-HDLC over exactly the 4 chunk
type bytes concatenated with the payload bytes, excluding the length and
checksum fields, and that CRC function reproduces the standard check value
0xCBF43926 on the ASCII bytes of the string of digits 1 to 9. -/
theorem claim_C4_crc_over_type_and_data :
    crc32 [49, 50, 51, 52, 53, 54, 55, 56, 57] = 0xCBF43926 ∧
    ∀ c : Chunk, c.crc = crc32 (c.chunk_type.bytes ++ c.data) :=
  ⟨by decide, fun _ => rfl⟩

/-- Claim C5: decoding any structurally complete chunk record whose stored
big-endian checksum differs from the checksum computed over its type and
payload bytes fails with the checksum-mismatch error — the chunk is rejected,
never accepted with a corrected checksum. -/
theorem claim_C5_checksum_mismatch_rejected (ct : ChunkType) (data : List Nat)
    (w : Nat) (hu : utf8Valid ct.bytes = true) (hd : data.length < 2 ^ 32)
    (hw : w < 2 ^ 32) (hne : w ≠ Chunk.crc ⟨ct, data⟩) :
    Chunk.try_from (toBeBytes4 data.length ++ ct.bytes ++ data ++ toBeBytes4 w) =
      .err .checksumMismatch := by
  have h := Chunk.try_from_encode ct data w [] hu hd hw
  rw [if_neg hne] at h
  simpa using h

/-- Witness for claim C5: an IHDR chunk record with empty payload and stored
checksum 0 (the correct checksum is nonzero) is rejected with the
checksum-mismatch error. -/
theorem claim_C5_checksum_mismatch_witness :
    utf8Valid (ChunkType.bytes ⟨73, 72, 68, 82⟩) = true ∧
    (0 : Nat) ≠ Chunk.crc ⟨⟨73, 72, 68, 82⟩, []⟩ ∧
    Chunk.try_from (toBeBytes4 0 ++
        ChunkType.bytes ⟨73, 72, 68, 82⟩ ++ ([] : List Nat) ++ toBeBytes4 0) =
      .err .checksumMismatch :=
  ⟨by decide, by decide,
    claim_C5_checksum_mismatch_rejected ⟨73, 72, 68, 82⟩ [] 0 (by decide)
      (by decide) (by decide) (by decide)⟩

/-- Claim C6 counterexample: the claim says constructing a ChunkType from raw
bytes always succeeds without validation; but the code runs str::from_utf8 on
the bytes, and the byte array 255,65,65,65 (0xFF is never valid in UTF-8) is
rejected. -/
theorem claim_C6_counterexample : ChunkType.try_from 255 65 65 65 = none := by
  decide

/-- Claim C6 (amended): constructing a ChunkType from 4 raw bytes succeeds
exactly when the bytes are valid UTF-8, and then stores the bytes verbatim;
ASCII-letter validity is not enforced at construction and is queried
separately via is_valid — as the second part shows, the digit code "1234" is
accepted by try_from yet is_valid reports it invalid. -/
theorem claim_C6_construction_utf8_only (a b c d : Nat) :
    ((∃ ct : ChunkType, ChunkType.try_from a b c d = some ct ∧
        ct.bytes = [a, b, c, d]) ↔ utf8Valid [a, b, c, d] = true) ∧
    (ChunkType.try_from 49 50 51 52 = some ⟨49, 50, 51, 52⟩ ∧
      ChunkType.is_valid ⟨49, 50, 51, 52⟩ = false) := by
  refine ⟨⟨?_, ?_⟩, by decide, by decide⟩
  · rintro ⟨ct, hct, -⟩
    by_cases hu : utf8Valid [a, b, c, d] = true
    · exact hu
    · simp [ChunkType.try_from, hu] at hct
  · intro hu
    exact ⟨⟨a, b, c, d⟩, by simp [ChunkType.try_from, hu], rfl⟩

/-- Claim C7: each chunk type property query is a pure test of bit 5 of one
raw byte: is_critical iff bit 5 of byte 0 is clear, is_public iff bit 5 of
byte 1 is clear, is_reserved_bit_valid iff bit 5 of byte 2 is clear, and
is_safe_to_copy iff bit 5 of byte 3 is set. -/
theorem claim_C7_property_bits (ct : ChunkType) :
    (ct.is_critical = true ↔ ct.b0.testBit 5 = false) ∧
    (ct.is_public = true ↔ ct.b1.testBit 5 = false) ∧
    (ct.is_reserved_bit_valid = true ↔ ct.b2.testBit 5 = false) ∧
    (ct.is_safe_to_copy = true ↔ ct.b3.testBit 5 = true) := by
  have key0 : ∀ n : Nat, (((n >>> 5) &&& 1 == 0) = true) ↔ n.testBit 5 = false := by
    intro n
    rw [Nat.testBit_to_div_mod, Nat.and_one_is_mod, Nat.shiftRight_eq_div_pow]
    simp only [beq_iff_eq, decide_eq_false_iff_not]
    omega
  have key1 : ∀ n : Nat, (((n >>> 5) &&& 1 == 1) = true) ↔ n.testBit 5 = true := by
    intro n
    rw [Nat.testBit_to_div_mod, Nat.and_one_is_mod, Nat.shiftRight_eq_div_pow]
    simp only [beq_iff_eq, decide_eq_true_eq]
  exact ⟨key0 ct.b0, key0 ct.b1, key0 ct.b2, key1 ct.b3⟩

/-- Claim C8: a buffer whose first 8 bytes differ from the fixed signature
137,80,78,71,13,10,26,10 fails with the bad-signature error, whatever bytes
follow — so no chunk decoding is reached on such input. -/
theorem claim_C8_bad_signature (s0 s1 s2 s3 s4 s5 s6 s7 : Nat)
    (rest : List Nat)
    (h : [s0, s1, s2, s3, s4, s5, s6, s7] ≠ Png.STANDARD_HEADER) :
    Png.try_from (s0 :: s1 :: s2 :: s3 :: s4 :: s5 :: s6 :: s7 :: rest) =
      .err .badSignature := by
  show (if [s0, s1, s2, s3, s4, s5, s6, s7] ≠ Png.STANDARD_HEADER then
      PngResult.err PngErr.badSignature else Png.parseChunks [] rest) =
    PngResult.err PngErr.badSignature
  rw [if_pos h]

/-- Witness for claim C8: the all-zero 8-byte buffer is rejected with the
bad-signature error. -/
theorem claim_C8_bad_signature_witness :
    Png.try_from [0, 0, 0, 0, 0, 0, 0, 0] = .err .badSignature :=
  claim_C8_bad_signature 0 0 0 0 0 0 0 0 [] (by decide)

/-- Claim C10 (implicit): on any buffer shorter than 8 bytes both parsing
entry points panic — Png's TryFrom at the value[0..8] slice and Chunk's
TryFrom at value.split_at(8) — rather than returning an error value. -/
theorem claim_C10_short_input_panics (v : List Nat) (h : v.length < 8) :
    Chunk.try_from v = .panicked ∧ Png.try_from v = .panicked := by
  constructor
  · unfold Chunk.try_from
    split
    · rename_i l0 l1 l2 l3 t0 t1 t2 t3 rest
      simp only [List.length_cons] at h
      omega
    · rfl
  · unfold Png.try_from
    split
    · rename_i s0 s1 s2 s3 s4 s5 s6 s7 rest
      simp only [List.length_cons] at h
      omega
    · rfl

/-- Witness for claim C10: the 3-byte buffer 1,2,3 makes both entry points
panic. -/
theorem claim_C10_short_input_panics_witness :
    Chunk.try_from [1, 2, 3] = .panicked ∧ Png.try_from [1, 2, 3] = .panicked :=
  claim_C10_short_input_panics [1, 2, 3] (by decide)

/-- Claim C9: remove_chunk removes and returns the first chunk in sequence
order whose rendered type equals the target code, leaving the remaining
chunks in their original relative order, and reports not-found (none) when no
chunk matches; chunk_by_type returns the first match in sequence order, or
none, and being a pure function it leaves the container unchanged. -/
theorem claim_C9_remove_find (p : Png) (target : List Nat) :
    ((∀ c ∈ p.chunks, c.chunk_type.display ≠ target) →
      p.remove_chunk target = none ∧ p.chunk_by_type target = none) ∧
    (∀ (l1 : List Chunk) (c : Chunk) (l2 : List Chunk),
      p.chunks = l1 ++ c :: l2 →
      (∀ x ∈ l1, x.chunk_type.display ≠ target) →
      c.chunk_type.display = target →
      p.remove_chunk target = some (c, ⟨l1 ++ l2⟩) ∧
      p.chunk_by_type target = some c) := by
  constructor
  · intro h
    constructor
    · rw [Png.remove_chunk, removeChunkAux_not_found h]
      rfl
    · rw [Png.chunk_by_type, List.find?_eq_none]
      intro x hx
      simpa using h x hx
  · intro l1 c l2 hsplit h1 hc
    constructor
    · rw [Png.remove_chunk, hsplit, removeChunkAux_first l1 h1 hc]
      rfl
    · rw [Png.chunk_by_type, hsplit, find_chunk_first l1 h1 hc]

/-- Witness for claim C9, the A,B,A scenario of the spec: on a container with
chunk types AAAA, BBBB, AAAA, removing AAAA removes only the first AAAA and
leaves BBBB, AAAA in order, and chunk_by_type AAAA returns that first AAAA. -/
theorem claim_C9_remove_find_witness :
    Png.remove_chunk
        ⟨[⟨⟨65, 65, 65, 65⟩, []⟩, ⟨⟨66, 66, 66, 66⟩, []⟩,
          ⟨⟨65, 65, 65, 65⟩, [7]⟩]⟩ [65, 65, 65, 65] =
      some (⟨⟨65, 65, 65, 65⟩, []⟩,
        ⟨[⟨⟨66, 66, 66, 66⟩, []⟩, ⟨⟨65, 65, 65, 65⟩, [7]⟩]⟩) ∧
    Png.chunk_by_type
        ⟨[⟨⟨65, 65, 65, 65⟩, []⟩, ⟨⟨66, 66, 66, 66⟩, []⟩,
          ⟨⟨65, 65, 65, 65⟩, [7]⟩]⟩ [65, 65, 65, 65] =
      some ⟨⟨65, 65, 65, 65⟩, []⟩ :=
  (claim_C9_remove_find
      ⟨[⟨⟨65, 65, 65, 65⟩, []⟩, ⟨⟨66, 66, 66, 66⟩, []⟩,
        ⟨⟨65, 65, 65, 65⟩, [7]⟩]⟩ [65, 65, 65, 65]).2
    [] ⟨⟨65, 65, 65, 65⟩, []⟩ [⟨⟨66, 66, 66, 66⟩, []⟩, ⟨⟨65, 65, 65, 65⟩, [7]⟩]
    rfl (by simp) (by decide)
